import Mathlib

/-!
Verification of the custom value-editing widgets and geometric helpers of the
Bevy_Egui genome editor, as a shallow embedding in Lean 4.

The embedded functions are:
* `circular_slider_float` (src/widgets.rs): the value/changed-flag logic of the
  circular angle slider.  Transcendental pointer math (`atan2`) is abstracted as
  an oracle input `atanDeg`, the atan2 result already converted to degrees; the
  text field's parse result is abstracted as an `Option ℚ`.
* `ray_sphere_intersection` (src/drag.rs), over the reals (the source's `f32`
  square root becomes `Real.sqrt`).
* `hue_to_rgb` (src/genome/mod.rs), with Rust's `%` on floats and the
  saturating `as u8` cast modelled explicitly.
* the orientation-ball update step (spec §4.2), modelled from the spec because
  `widgets::quaternion_ball` is called from `ui.rs`/`main.rs` but its definition
  is not part of the source tree.

Machine floats are modelled by exact arithmetic (`ℚ`, and `ℝ` where a square
root occurs), the standard shallow-embedding convention.
-/

namespace BevyEgui

/-- Rust's `f32::clamp(self, min, max)` (for `min ≤ max`, non-NaN inputs):
return `min` if below, `max` if above, otherwise the value itself. -/
def rustClamp (x lo hi : ℚ) : ℚ :=
  if x < lo then lo else if hi < x then hi else x

/-- Rust's `f32::round`: nearest integer, ties away from zero. -/
def rustRound (x : ℚ) : ℤ :=
  if 0 ≤ x then ⌊x + 1/2⌋ else ⌈x - 1/2⌉

/-- The wrap step of `circular_slider_float` (widgets.rs lines 114–116):
`if degrees > 180.0 { degrees -= 360.0 }`. -/
def wrapDeg (d : ℚ) : ℚ :=
  if 180 < d then d - 360 else d

/-- The snap step of `circular_slider_float` (widgets.rs line 118):
`degrees = (degrees / 11.25).round() * 11.25`.  Note `11.25 = 45/4`. -/
def snapDeg (d : ℚ) : ℚ :=
  (rustRound (d / (45/4)) : ℚ) * (45/4)

/-- The candidate value computed by the drag path of `circular_slider_float`
(widgets.rs lines 109–121), given the oracle `atanDeg` = the degree value of
`mouse_rel_y.atan2(mouse_rel_x)` (so `mouse_angle` in degrees is
`atanDeg + 90`).  The source wraps, optionally snaps, then clamps. -/
def dragCandidate (enable_snapping : Bool) (atanDeg vmin vmax : ℚ) : ℚ :=
  let degrees := atanDeg + 90
  let degrees := if 180 < degrees then degrees - 360 else degrees
  let degrees := if enable_snapping then (rustRound (degrees / (45/4)) : ℚ) * (45/4) else degrees
  rustClamp degrees vmin vmax

/-- The drag branch of `circular_slider_float` (widgets.rs lines 108–126):
when `response.dragged()` holds, compute the candidate and commit it exactly
when it differs from the old value by more than `0.001`; otherwise leave the
value untouched and report no change. -/
def dragStep (v vmin vmax : ℚ) (enable_snapping dragged : Bool) (atanDeg : ℚ) :
    ℚ × Bool :=
  if dragged then
    let new_value := dragCandidate enable_snapping atanDeg vmin vmax
    if 1/1000 < |new_value - v| then (new_value, true) else (v, false)
  else (v, false)

/-- The value/changed-flag behaviour of one call to `circular_slider_float`
(widgets.rs lines 8–156).  Drawing is omitted (it never touches `value`).
Inputs: the backing value `v`, the bounds, the snapping flag, whether
`response.dragged()` held, the atan2 oracle `atanDeg` (degrees), whether the
center text field lost focus this frame, and the `f32::parse` result of its
text.  Returns the new backing value and whether `mark_changed` was called.
The drag branch (lines 108–126) runs first, the lost-focus branch
(lines 148–153) second, exactly as in the source. -/
def circular_slider_float (v vmin vmax : ℚ) (enable_snapping : Bool)
    (dragged : Bool) (atanDeg : ℚ) (lost_focus : Bool) (parsed : Option ℚ) :
    ℚ × Bool :=
  let afterDrag := dragStep v vmin vmax enable_snapping dragged atanDeg
  if lost_focus then
    match parsed with
    | some nv => (rustClamp nv vmin vmax, true)
    | none => afterDrag
  else afterDrag

/-- Stated from the spec's words (§4.1 steps 1–4 / claim C2): the drag
candidate as the composition `clamp ∘ maybe_snap ∘ wrap` applied to
`deg(atan2) + 90`, snapping before clamping. -/
def maybe_snap (snap : Bool) (d : ℚ) : ℚ :=
  if snap then snapDeg d else d

/-- Stated from the spec's words (§4.1 steps 1–4 / claim C2): the full
spec-side candidate formula `clamp(maybe_snap(wrap(deg(atan2)+90)), vmin, vmax)`. -/
def specCandidate (snap : Bool) (atanDeg vmin vmax : ℚ) : ℚ :=
  rustClamp (maybe_snap snap (wrapDeg (atanDeg + 90))) vmin vmax

/-- Quaternion with rational components, scalar part `w` — the exact-arithmetic
counterpart of glam's `Quat` used by the orientation data. -/
structure Quat where
  w : ℚ
  x : ℚ
  y : ℚ
  z : ℚ

/-- Hamilton product of quaternions. -/
def qmul (p q : Quat) : Quat :=
  ⟨p.w * q.w - p.x * q.x - p.y * q.y - p.z * q.z,
   p.w * q.x + p.x * q.w + p.y * q.z - p.z * q.y,
   p.w * q.y - p.x * q.z + p.y * q.w + p.z * q.x,
   p.w * q.z + p.x * q.y - p.y * q.x + p.z * q.w⟩

/-- Quaternion conjugate. -/
def qconj (q : Quat) : Quat := ⟨q.w, -q.x, -q.y, -q.z⟩

/-- Squared norm of a quaternion (`‖q‖ = 1` iff `qnormSq q = 1`). -/
def qnormSq (q : Quat) : ℚ := q.w ^ 2 + q.x ^ 2 + q.y ^ 2 + q.z ^ 2

/-- Rational 3-vector (for the rotated basis axes). -/
structure V3 where
  x : ℚ
  y : ℚ
  z : ℚ

/-- Dot product of rational 3-vectors. -/
def v3dot (a b : V3) : ℚ := a.x * b.x + a.y * b.y + a.z * b.z

/-- Rotation of a vector by a quaternion: the vector part of
`q · (0, v) · conj q` (for unit `q` this is the usual rotation action,
glam's `Quat::mul_vec3`). -/
def qrotate (q : Quat) (v : V3) : V3 :=
  let p := qmul (qmul q ⟨0, v.x, v.y, v.z⟩) (qconj q)
  ⟨p.x, p.y, p.z⟩

/-- First derived axis: the canonical X basis vector rotated by `q`. -/
def xAxis (q : Quat) : V3 := qrotate q ⟨1, 0, 0⟩

/-- Second derived axis: the canonical Y basis vector rotated by `q`. -/
def yAxis (q : Quat) : V3 := qrotate q ⟨0, 1, 0⟩

/-- Third derived axis: the canonical Z basis vector rotated by `q`. -/
def zAxis (q : Quat) : V3 := qrotate q ⟨0, 0, 1⟩

/-- Modelled from the spec: `widgets::quaternion_ball` is invoked from `ui.rs`
and `main.rs` but its definition is not part of the source tree under `src/`.
Per spec §4.2, a drag frame computes the minimal rotation `Δq` taking the old
locked-axis direction to the (snapped) candidate direction and applies it to
the whole orientation, `q' = Δq · q`, never editing a single axis
independently; a frame without an active drag leaves the orientation unchanged
(the identity `Δq`). -/
def quaternion_ball_step (dq q : Quat) : Quat := qmul dq q

/- Helper lemmas. -/

theorem qnormSq_qmul (p q : Quat) :
    qnormSq (qmul p q) = qnormSq p * qnormSq q := by
  unfold qnormSq qmul
  ring

theorem xAxis_dot_yAxis (q : Quat) : v3dot (xAxis q) (yAxis q) = 0 := by
  unfold v3dot xAxis yAxis qrotate qmul qconj
  ring

theorem xAxis_dot_zAxis (q : Quat) : v3dot (xAxis q) (zAxis q) = 0 := by
  unfold v3dot xAxis zAxis qrotate qmul qconj
  ring

theorem yAxis_dot_zAxis (q : Quat) : v3dot (yAxis q) (zAxis q) = 0 := by
  unfold v3dot yAxis zAxis qrotate qmul qconj
  ring

theorem rustClamp_mem (x lo hi : ℚ) (h : lo ≤ hi) :
    lo ≤ rustClamp x lo hi ∧ rustClamp x lo hi ≤ hi := by
  unfold rustClamp
  split_ifs with h1 h2 <;> constructor <;> linarith

theorem rustRound_intCast (n : ℤ) : rustRound (n : ℚ) = n := by
  unfold rustRound
  split_ifs with h
  · rw [show ((n : ℚ) + 1/2) = (1/2 : ℚ) + (n : ℚ) by ring]
    rw [Int.floor_add_int]
    norm_num
  · rw [show ((n : ℚ) - 1/2) = (-(1/2) : ℚ) + (n : ℚ) by ring]
    rw [Int.ceil_add_int]
    norm_num

theorem csf_no_focus (v vmin vmax : ℚ) (snap dragged : Bool) (a : ℚ)
    (parsed : Option ℚ) :
    circular_slider_float v vmin vmax snap dragged a false parsed =
      dragStep v vmin vmax snap dragged a := rfl

theorem csf_focus_none (v vmin vmax : ℚ) (snap dragged : Bool) (a : ℚ) :
    circular_slider_float v vmin vmax snap dragged a true none =
      dragStep v vmin vmax snap dragged a := rfl

theorem dragStep_false (v vmin vmax : ℚ) (snap : Bool) (a : ℚ) :
    dragStep v vmin vmax snap false a = (v, false) := rfl

theorem dragStep_true_commit (v vmin vmax : ℚ) (snap : Bool) (a : ℚ)
    (h : 1/1000 < |dragCandidate snap a vmin vmax - v|) :
    dragStep v vmin vmax snap true a = (dragCandidate snap a vmin vmax, true) := by
  unfold dragStep
  rw [if_pos (rfl : (true : Bool) = true)]
  dsimp only
  rw [if_pos h]

theorem dragStep_true_skip (v vmin vmax : ℚ) (snap : Bool) (a : ℚ)
    (h : ¬ (1/1000 < |dragCandidate snap a vmin vmax - v|)) :
    dragStep v vmin vmax snap true a = (v, false) := by
  unfold dragStep
  rw [if_pos (rfl : (true : Bool) = true)]
  dsimp only
  rw [if_neg h]

/-- Claim C1: for every bounds pair with `vmin ≤ vmax` and any starting value in
`[vmin, vmax]`, after any single call to `circular_slider_float` — whatever the
pointer position, drag state, or text-field content — the committed value stays
in `[vmin, vmax]`: both the drag path and the lost-focus text path clamp before
committing. -/
theorem circular_slider_float_in_bounds
    (v vmin vmax : ℚ) (snap dragged : Bool) (a : ℚ) (lf : Bool) (parsed : Option ℚ)
    (hb : vmin ≤ vmax) (h1 : vmin ≤ v) (h2 : v ≤ vmax) :
    vmin ≤ (circular_slider_float v vmin vmax snap dragged a lf parsed).1 ∧
      (circular_slider_float v vmin vmax snap dragged a lf parsed).1 ≤ vmax := by
  obtain ⟨d, hd⟩ : ∃ d, dragCandidate snap a vmin vmax = rustClamp d vmin vmax :=
    ⟨_, rfl⟩
  have hdrag : vmin ≤ (dragStep v vmin vmax snap dragged a).1 ∧
      (dragStep v vmin vmax snap dragged a).1 ≤ vmax := by
    cases dragged
    · rw [dragStep_false]
      exact ⟨h1, h2⟩
    · by_cases hc : 1/1000 < |dragCandidate snap a vmin vmax - v|
      · rw [dragStep_true_commit v vmin vmax snap a hc]
        rw [show (dragCandidate snap a vmin vmax, true).1 =
          dragCandidate snap a vmin vmax from rfl, hd]
        exact rustClamp_mem d vmin vmax hb
      · rw [dragStep_true_skip v vmin vmax snap a hc]
        exact ⟨h1, h2⟩
  cases lf
  · rw [csf_no_focus]
    exact hdrag
  · cases parsed with
    | none =>
        rw [csf_focus_none]
        exact hdrag
    | some nv => exact rustClamp_mem nv vmin vmax hb

theorem circular_slider_float_in_bounds_witness :
    (-180 : ℚ) ≤ (circular_slider_float 0 (-180) 180 false false 0 false none).1 ∧
      (circular_slider_float 0 (-180) 180 false false 0 false none).1 ≤ 180 :=
  circular_slider_float_in_bounds 0 (-180) 180 false false 0 false none
    (by norm_num) (by norm_num) (by norm_num)

/-- Claim C2: on a drag frame the candidate committed by `circular_slider_float`
is exactly `clamp(maybe_snap(wrap(deg(atan2) + 90)), vmin, vmax)` — snapping
(when enabled) applied before clamping, in exactly that order — and when it
passes the 0.001 change gate it is the value committed. -/
theorem drag_candidate_is_clamp_snap_wrap (snap : Bool) (a vmin vmax v : ℚ) :
    dragCandidate snap a vmin vmax = specCandidate snap a vmin vmax ∧
      (1/1000 < |specCandidate snap a vmin vmax - v| →
        circular_slider_float v vmin vmax snap true a false none =
          (specCandidate snap a vmin vmax, true)) := by
  have he : dragCandidate snap a vmin vmax = specCandidate snap a vmin vmax := by
    unfold dragCandidate specCandidate maybe_snap wrapDeg snapDeg
    rfl
  refine ⟨he, fun h => ?_⟩
  have h' : 1/1000 < |dragCandidate snap a vmin vmax - v| := by
    rw [he]; exact h
  rw [csf_no_focus, dragStep_true_commit v vmin vmax snap a h', he]

theorem drag_candidate_is_clamp_snap_wrap_witness :
    dragCandidate false 45 (-180) 180 = specCandidate false 45 (-180) 180 ∧
      circular_slider_float 0 (-180) 180 false true 45 false none =
        (specCandidate false 45 (-180) 180, true) :=
  ⟨(drag_candidate_is_clamp_snap_wrap false 45 (-180) 180 0).1,
   (drag_candidate_is_clamp_snap_wrap false 45 (-180) 180 0).2
     (by norm_num [specCandidate, maybe_snap, wrapDeg, rustClamp])⟩

/-- Claim C4: on a drag frame the backing value is mutated exactly when the
clamped candidate differs from the old value by more than 0.001; below that
threshold the drag path leaves the value unchanged and reports no change,
above it the candidate is committed and a change is reported. -/
theorem drag_commit_epsilon (snap : Bool) (a vmin vmax v : ℚ) :
    (1/1000 < |dragCandidate snap a vmin vmax - v| →
      circular_slider_float v vmin vmax snap true a false none =
        (dragCandidate snap a vmin vmax, true)) ∧
    (|dragCandidate snap a vmin vmax - v| ≤ 1/1000 →
      circular_slider_float v vmin vmax snap true a false none = (v, false)) := by
  constructor
  · intro h
    rw [csf_no_focus, dragStep_true_commit v vmin vmax snap a h]
  · intro h
    rw [csf_no_focus, dragStep_true_skip v vmin vmax snap a (not_lt.mpr h)]

theorem drag_commit_epsilon_witness :
    circular_slider_float 0 (-180) 180 false true 0 false none = (90, true) ∧
      circular_slider_float 90 (-180) 180 false true 0 false none = (90, false) := by
  constructor
  · have h := (drag_commit_epsilon false 0 (-180) 180 0).1
      (by norm_num [dragCandidate, rustClamp])
    rw [h]
    norm_num [dragCandidate, rustClamp]
  · exact (drag_commit_epsilon false 0 (-180) 180 90).2
      (by norm_num [dragCandidate, rustClamp])

/-- Claim C5: when the text field loses focus with content that does not parse
as a number, the backing value is left unchanged and no change is reported;
the failed edit is discarded silently (the call behaves exactly as if no
lost-focus event had happened). -/
theorem text_unparseable_noop (v vmin vmax : ℚ) (snap : Bool) (a : ℚ) (dragged : Bool) :
    circular_slider_float v vmin vmax snap false a true none = (v, false) ∧
      circular_slider_float v vmin vmax snap dragged a true none =
        circular_slider_float v vmin vmax snap dragged a false none :=
  ⟨rfl, rfl⟩

/-- Claim C8: when the text field loses focus with content that parses as `nv`,
the value is set to `clamp(nv, vmin, vmax)` and a change is reported
unconditionally — even when the committed value equals the old one; the drag
path's 0.001 epsilon is not applied on this path. -/
theorem text_commit_unconditional (v vmin vmax : ℚ) (snap : Bool) (a nv : ℚ) :
    circular_slider_float v vmin vmax snap false a true (some nv) =
      (rustClamp nv vmin vmax, true) := rfl

/-- Claim C6: the snapping operation `x ↦ round(x / 11.25) * 11.25` is
idempotent: `snap (snap x) = snap x` for every angle `x`. -/
theorem snapDeg_idempotent (x : ℚ) : snapDeg (snapDeg x) = snapDeg x := by
  unfold snapDeg
  rw [mul_div_cancel_right₀ _ (by norm_num : (45/4 : ℚ) ≠ 0)]
  rw [rustRound_intCast]

/-- Claim C7: with the atan2 oracle in its range `[-180, 180]` (degrees), the
intermediate degrees value `wrap(atanDeg + 90)` computed during a drag lies in
`(-180, 180]`; and the wrap step never adjusts a value of `-180` or below
upward. -/
theorem drag_degrees_range :
    (∀ a : ℚ, -180 ≤ a → a ≤ 180 →
      -180 < wrapDeg (a + 90) ∧ wrapDeg (a + 90) ≤ 180) ∧
    (∀ d : ℚ, d ≤ -180 → wrapDeg d = d) := by
  constructor
  · intro a ha1 ha2
    unfold wrapDeg
    split_ifs with h <;> constructor <;> linarith
  · intro d hd
    unfold wrapDeg
    rw [if_neg (by linarith)]

theorem drag_degrees_range_witness :
    ((-180 : ℚ) < wrapDeg (0 + 90) ∧ wrapDeg (0 + 90) ≤ 180) ∧
      wrapDeg (-200) = -200 :=
  ⟨drag_degrees_range.1 0 (by norm_num) (by norm_num),
   drag_degrees_range.2 (-200) (by norm_num)⟩

/-- Claim C3: after every orientation-ball operation (modelled from spec §4.2
as multiplying the whole orientation by a unit delta rotation; a frame without
a drag is the identity delta), the quaternion is exactly unit — hence
`|‖q‖ − 1| < 1e-4` — and the three axis vectors obtained by rotating the
canonical basis by it have pairwise dot products of magnitude below `1e-4`
(in the exact model they are exactly zero). -/
theorem quaternion_ball_invariants (dq q : Quat)
    (hdq : qnormSq dq = 1) (hq : qnormSq q = 1) :
    qnormSq (quaternion_ball_step dq q) = 1 ∧
      |qnormSq (quaternion_ball_step dq q) - 1| < 1/10000 ∧
      |v3dot (xAxis (quaternion_ball_step dq q))
          (yAxis (quaternion_ball_step dq q))| < 1/10000 ∧
      |v3dot (xAxis (quaternion_ball_step dq q))
          (zAxis (quaternion_ball_step dq q))| < 1/10000 ∧
      |v3dot (yAxis (quaternion_ball_step dq q))
          (zAxis (quaternion_ball_step dq q))| < 1/10000 := by
  have hu : qnormSq (quaternion_ball_step dq q) = 1 := by
    unfold quaternion_ball_step
    rw [qnormSq_qmul, hdq, hq]
    norm_num
  refine ⟨hu, ?_, ?_, ?_, ?_⟩
  · rw [hu]
    norm_num
  · rw [xAxis_dot_yAxis]
    norm_num
  · rw [xAxis_dot_zAxis]
    norm_num
  · rw [yAxis_dot_zAxis]
    norm_num

theorem quaternion_ball_invariants_witness :
    qnormSq (quaternion_ball_step ⟨3/5, 4/5, 0, 0⟩ ⟨1, 0, 0, 0⟩) = 1 ∧
      |qnormSq (quaternion_ball_step ⟨3/5, 4/5, 0, 0⟩ ⟨1, 0, 0, 0⟩) - 1| < 1/10000 ∧
      |v3dot (xAxis (quaternion_ball_step ⟨3/5, 4/5, 0, 0⟩ ⟨1, 0, 0, 0⟩))
          (yAxis (quaternion_ball_step ⟨3/5, 4/5, 0, 0⟩ ⟨1, 0, 0, 0⟩))| < 1/10000 ∧
      |v3dot (xAxis (quaternion_ball_step ⟨3/5, 4/5, 0, 0⟩ ⟨1, 0, 0, 0⟩))
          (zAxis (quaternion_ball_step ⟨3/5, 4/5, 0, 0⟩ ⟨1, 0, 0, 0⟩))| < 1/10000 ∧
      |v3dot (yAxis (quaternion_ball_step ⟨3/5, 4/5, 0, 0⟩ ⟨1, 0, 0, 0⟩))
          (zAxis (quaternion_ball_step ⟨3/5, 4/5, 0, 0⟩ ⟨1, 0, 0, 0⟩))| < 1/10000 :=
  quaternion_ball_invariants ⟨3/5, 4/5, 0, 0⟩ ⟨1, 0, 0, 0⟩
    (by norm_num [qnormSq]) (by norm_num [qnormSq])

/-- Real 3-vector, the exact counterpart of glam's `Vec3` in `drag.rs`. -/
structure Vec3 where
  x : ℝ
  y : ℝ
  z : ℝ

/-- glam's `Vec3::dot`. -/
def dot (a b : Vec3) : ℝ := a.x * b.x + a.y * b.y + a.z * b.z

/-- Componentwise vector subtraction (glam's `Sub for Vec3`). -/
def vsub (a b : Vec3) : Vec3 := ⟨a.x - b.x, a.y - b.y, a.z - b.z⟩

/-- `ray_sphere_intersection` (drag.rs lines 118–140) over the reals:
quadratic test of the ray against the sphere, returning the smaller root when
the discriminant is non-negative and that root is strictly positive. -/
noncomputable def ray_sphere_intersection
    (ray_origin ray_direction sphere_center : Vec3) (sphere_radius : ℝ) :
    Option ℝ :=
  let oc := vsub ray_origin sphere_center
  let a := dot ray_direction ray_direction
  let b := 2 * dot oc ray_direction
  let c := dot oc oc - sphere_radius * sphere_radius
  let discriminant := b * b - 4 * a * c
  if discriminant < 0 then
    none
  else
    let t := (-b - Real.sqrt discriminant) / (2 * a)
    if t > 0 then some t else none

/-- The discriminant `b² − 4ac` computed by `ray_sphere_intersection`. -/
def rsDisc (ro rd sc : Vec3) (r : ℝ) : ℝ :=
  (2 * dot (vsub ro sc) rd) * (2 * dot (vsub ro sc) rd) -
    4 * dot rd rd * (dot (vsub ro sc) (vsub ro sc) - r * r)

/-- The smaller quadratic root `(−b − √disc) / (2a)` computed by
`ray_sphere_intersection`. -/
noncomputable def rsRoot (ro rd sc : Vec3) (r : ℝ) : ℝ :=
  (-(2 * dot (vsub ro sc) rd) - Real.sqrt (rsDisc ro rd sc r)) /
    (2 * dot rd rd)

theorem rsi_eq (ro rd sc : Vec3) (r : ℝ) :
    ray_sphere_intersection ro rd sc r =
      if rsDisc ro rd sc r < 0 then none
      else if rsRoot ro rd sc r > 0 then some (rsRoot ro rd sc r) else none := rfl

theorem dot_self_nonneg (v : Vec3) : 0 ≤ dot v v := by
  unfold dot
  nlinarith [mul_self_nonneg v.x, mul_self_nonneg v.y, mul_self_nonneg v.z]

/-- Claim C9: `ray_sphere_intersection` returns `some t` exactly when the
discriminant is non-negative and the smaller root `(−b − √disc)/(2a)` is
strictly positive, the returned `t` being that smaller (nearer) root; in
particular a ray whose origin lies strictly inside the sphere yields `none`
(its smaller root is negative), and so does any configuration whose smaller
root is non-positive, e.g. a sphere entirely behind the origin. -/
theorem ray_sphere_intersection_spec :
    (∀ ro rd sc : Vec3, ∀ r t : ℝ,
      ray_sphere_intersection ro rd sc r = some t ↔
        0 ≤ rsDisc ro rd sc r ∧ t = rsRoot ro rd sc r ∧ 0 < t) ∧
    (∀ ro rd sc : Vec3, ∀ r : ℝ, 0 < dot rd rd → 0 ≤ rsDisc ro rd sc r →
      rsRoot ro rd sc r ≤
        (-(2 * dot (vsub ro sc) rd) + Real.sqrt (rsDisc ro rd sc r)) /
          (2 * dot rd rd)) ∧
    (∀ ro rd sc : Vec3, ∀ r : ℝ, dot rd rd ≠ 0 →
      dot (vsub ro sc) (vsub ro sc) < r * r →
      ray_sphere_intersection ro rd sc r = none) := by
  refine ⟨?_, ?_, ?_⟩
  · intro ro rd sc r t
    rw [rsi_eq]
    rcases lt_or_le (rsDisc ro rd sc r) 0 with h | h
    · rw [if_pos h]
      constructor
      · intro hc
        exact Option.noConfusion hc
      · rintro ⟨hd, -, -⟩
        linarith
    · rw [if_neg (not_lt.mpr h)]
      by_cases hp : rsRoot ro rd sc r > 0
      · rw [if_pos hp]
        constructor
        · intro hs
          have ht : rsRoot ro rd sc r = t := Option.some.inj hs
          exact ⟨h, ht.symm, ht ▸ hp⟩
        · rintro ⟨-, ht, -⟩
          rw [ht]
      · rw [if_neg hp]
        constructor
        · intro hc
          exact Option.noConfusion hc
        · rintro ⟨-, ht, hpos⟩
          exact absurd (ht ▸ hpos) hp
  · intro ro rd sc r ha hd
    unfold rsRoot
    have hs : 0 ≤ Real.sqrt (rsDisc ro rd sc r) := Real.sqrt_nonneg _
    exact (div_le_div_iff_of_pos_right (by linarith)).mpr (by linarith)
  · intro ro rd sc r ha hc
    have ha' : 0 < dot rd rd := lt_of_le_of_ne (dot_self_nonneg rd) (Ne.symm ha)
    have hcneg : dot (vsub ro sc) (vsub ro sc) - r * r < 0 := by linarith
    have hb2 : (2 * dot (vsub ro sc) rd) * (2 * dot (vsub ro sc) rd) <
        rsDisc ro rd sc r := by
      unfold rsDisc
      nlinarith
    have hdnn : 0 ≤ rsDisc ro rd sc r := by nlinarith [mul_self_nonneg (2 * dot (vsub ro sc) rd)]
    have hsq : |2 * dot (vsub ro sc) rd| < Real.sqrt (rsDisc ro rd sc r) := by
      rw [← Real.sqrt_mul_self_eq_abs]
      exact Real.sqrt_lt_sqrt (mul_self_nonneg _) hb2
    have hnum : -(2 * dot (vsub ro sc) rd) - Real.sqrt (rsDisc ro rd sc r) < 0 := by
      have := neg_abs_le (2 * dot (vsub ro sc) rd)
      have habs := abs_nonneg (2 * dot (vsub ro sc) rd)
      linarith [hsq]
    have hroot : rsRoot ro rd sc r < 0 := by
      unfold rsRoot
      exact div_neg_of_neg_of_pos hnum (by linarith)
    rw [rsi_eq, if_neg (not_lt.mpr hdnn), if_neg (by linarith : ¬ rsRoot ro rd sc r > 0)]

theorem ray_sphere_intersection_spec_witness :
    ray_sphere_intersection ⟨0, 0, 0⟩ ⟨0, 0, 1⟩ ⟨0, 0, 5⟩ 1 = some 4 ∧
      ray_sphere_intersection ⟨0, 0, 0⟩ ⟨0, 0, 1⟩ ⟨0, 0, 0⟩ 1 = none := by
  have hd4 : rsDisc ⟨0, 0, 0⟩ ⟨0, 0, 1⟩ ⟨0, 0, 5⟩ 1 = 4 := by
    norm_num [rsDisc, dot, vsub]
  have hsq : Real.sqrt (rsDisc ⟨0, 0, 0⟩ ⟨0, 0, 1⟩ ⟨0, 0, 5⟩ 1) = 2 := by
    rw [hd4, show (4:ℝ) = 2 ^ 2 by norm_num, Real.sqrt_sq (by norm_num)]
  constructor
  · refine (ray_sphere_intersection_spec.1 ⟨0, 0, 0⟩ ⟨0, 0, 1⟩ ⟨0, 0, 5⟩ 1 4).mpr
      ⟨by rw [hd4]; norm_num, ?_, by norm_num⟩
    unfold rsRoot
    rw [hsq]
    norm_num [dot, vsub]
  · exact ray_sphere_intersection_spec.2.2 ⟨0, 0, 0⟩ ⟨0, 0, 1⟩ ⟨0, 0, 0⟩ 1
      (by norm_num [dot]) (by norm_num [dot, vsub])

/-- Integer truncation toward zero, as Rust's float-to-int conversions use. -/
def ratTrunc (q : ℚ) : ℤ := if 0 ≤ q then ⌊q⌋ else ⌈q⌉

/-- Rust's `%` on floats: `a - b * trunc(a / b)`, result has the dividend's
sign. -/
def rustRem (a b : ℚ) : ℚ := a - b * (ratTrunc (a / b) : ℚ)

/-- Rust's float-to-`u8` `as` cast: truncate toward zero, saturating into
`[0, 255]`. -/
def f32_as_u8 (v : ℚ) : ℕ := if v ≤ 0 then 0 else min 255 ⌊v⌋.toNat

/-- `hue_to_rgb` (genome/mod.rs lines 272–294): convert an HSV hue in degrees
to an RGB triple, each intermediate channel scaled by `v * 155 + 100` "for
better visibility" before the `u8` cast. -/
def hue_to_rgb (hue : ℚ) : ℕ × ℕ × ℕ :=
  let h := hue / 60
  let c : ℚ := 1
  let x : ℚ := 1 - |rustRem h 2 - 1|
  let rgb : ℚ × ℚ × ℚ :=
    if h < 1 then (c, x, 0)
    else if h < 2 then (x, c, 0)
    else if h < 3 then (0, c, x)
    else if h < 4 then (0, x, c)
    else if h < 5 then (x, 0, c)
    else (c, 0, x)
  (f32_as_u8 (rgb.1 * 155 + 100), f32_as_u8 (rgb.2.1 * 155 + 100),
    f32_as_u8 (rgb.2.2 * 155 + 100))

theorem rustRem_two_mem (h : ℚ) (hh : 0 ≤ h) :
    0 ≤ rustRem h 2 ∧ rustRem h 2 < 2 := by
  unfold rustRem ratTrunc
  rw [if_pos (by positivity : (0:ℚ) ≤ h / 2)]
  have hle := Int.floor_le (h / 2)
  have hlt := Int.lt_floor_add_one (h / 2)
  constructor
  · linarith
  · linarith

theorem chan_x_mem (h : ℚ) (hh : 0 ≤ h) :
    0 ≤ 1 - |rustRem h 2 - 1| ∧ 1 - |rustRem h 2 - 1| ≤ 1 := by
  obtain ⟨h1, h2⟩ := rustRem_two_mem h hh
  have habs : |rustRem h 2 - 1| ≤ 1 := abs_le.mpr ⟨by linarith, by linarith⟩
  have hnn : 0 ≤ |rustRem h 2 - 1| := abs_nonneg _
  constructor
  · linarith
  · linarith

theorem f32_as_u8_scale_mem (v : ℚ) (h0 : 0 ≤ v) (h1 : v ≤ 1) :
    100 ≤ f32_as_u8 (v * 155 + 100) ∧ f32_as_u8 (v * 155 + 100) ≤ 255 := by
  unfold f32_as_u8
  rw [if_neg (by linarith : ¬ (v * 155 + 100 ≤ 0))]
  have hfl : (100:ℤ) ≤ ⌊v * 155 + 100⌋ := by
    apply Int.le_floor.mpr
    push_cast
    linarith
  constructor
  · refine le_min (by norm_num) ?_
    exact (Int.le_toNat (by linarith)).mpr hfl
  · exact min_le_left _ _

/-- Claim C10: for every hue in `[0, 360)`, each component of `hue_to_rgb`
lies in `[100, 255]`: the intermediate channel values are in `[0, 1]`, the
scaling `v·155 + 100` maps them into `[100, 255]`, and the `u8` conversion
never wraps or truncates out of range. -/
theorem hue_to_rgb_range (hue : ℚ) (h0 : 0 ≤ hue) (h1 : hue < 360) :
    (100 ≤ (hue_to_rgb hue).1 ∧ (hue_to_rgb hue).1 ≤ 255) ∧
      (100 ≤ (hue_to_rgb hue).2.1 ∧ (hue_to_rgb hue).2.1 ≤ 255) ∧
      (100 ≤ (hue_to_rgb hue).2.2 ∧ (hue_to_rgb hue).2.2 ≤ 255) := by
  have hh : 0 ≤ hue / 60 := by positivity
  obtain ⟨hx0, hx1⟩ := chan_x_mem (hue / 60) hh
  unfold hue_to_rgb
  dsimp only
  split_ifs <;>
    exact ⟨f32_as_u8_scale_mem _ (by linarith) (by linarith),
      f32_as_u8_scale_mem _ (by linarith) (by linarith),
      f32_as_u8_scale_mem _ (by linarith) (by linarith)⟩

theorem hue_to_rgb_range_witness :
    (100 ≤ (hue_to_rgb 0).1 ∧ (hue_to_rgb 0).1 ≤ 255) ∧
      (100 ≤ (hue_to_rgb 0).2.1 ∧ (hue_to_rgb 0).2.1 ≤ 255) ∧
      (100 ≤ (hue_to_rgb 0).2.2 ∧ (hue_to_rgb 0).2.2 ≤ 255) :=
  hue_to_rgb_range 0 (by norm_num) (by norm_num)

end BevyEgui
